import Mathlib

/-!
# Animation playback scheduler of `src/script.js`

A shallow embedding of the animation part of the viewer script: the clip
registry (`gltfAnimations`), the `THREE.AnimationMixer` seen through the calls
the script makes on it, the per-clip checkboxes rendered by
`displayAnimationList`, the two mode checkboxes, and the `setTimeout` callbacks
of `playSequentialAnimations`.

Modelling conventions.
* The mixer is a test double: `AnimationMixer.active` is the set of clips whose
  action is running, and `State.calls` records, in time order, every call the
  script makes on a mixer.
* A clip is identified by its position in `gltfAnimations`.
* The only elements of class `animation-checkbox`, and the only elements whose
  id has the form `animation-N-checkbox`, are those written by
  `displayAnimationList`; `State.checkboxes` lists them in document order.
* `displayAnimationList` pastes each clip name unescaped into the markup it
  assigns to `innerHTML`.  The model covers the names that the HTML parser
  copies verbatim into a text node (`plainText`).  For any other name the
  elements created depend on the markup inside the name; such a load is outside
  the model and `displayAnimationList` answers `none`.
* A pending `setTimeout` callback is a `Timer`; all timers have the same delay
  (2000 ms), so they fire in the order they were created.
* Rendering, camera, file reading and the upload (`sendFileData`) do not touch
  the state modelled here and are left out.
-/

namespace ThreeJsFrontend

/-- An entry of `gltf.animations`; the script reads only its name. -/
structure Clip where
  name : String
deriving DecidableEq, Repr

/-- A call made by the script on the animation mixer.  `clipActionPlay clip`
stands for `mixer.clipAction(animation)` followed by `reset().play()`, where
`clip` is the position of `animation` in the registry, or `none` when
`animation` is `undefined`. -/
inductive MixerCall where
  | stopAllAction
  | clipActionPlay (clip : Option Nat)
deriving DecidableEq, Repr

/-- The animation mixer, reduced to the set of clips whose action is running. -/
structure AnimationMixer where
  active : List Nat
deriving DecidableEq, Repr

/-- One rendered pair of a label and a checkbox input: `id` is the
number in the element id `animation-N-checkbox`, `dataIndex` the value of its
`data-index` attribute, `changeListeners` the number of `change` listeners
bound to the input. -/
structure Checkbox where
  label : String
  id : Nat
  dataIndex : Nat
  checked : Bool
  disabled : Bool
  changeListeners : Nat
deriving DecidableEq, Repr

/-- A pending `setTimeout` callback of `playNextAnimation`: `handle` is the id
returned by `setTimeout`, `index` the captured constant, `currentIndex` the
value of the cursor variable of its chain while the callback waits. -/
structure Timer where
  handle : Nat
  index : Nat
  currentIndex : Nat
deriving DecidableEq, Repr

/-- The session state of the script. -/
@[ext]
structure State where
  /-- The global `gltfAnimations`. -/
  gltfAnimations : List Clip
  /-- The global `mixer`; `none` is `undefined`. -/
  mixer : Option AnimationMixer
  /-- Whether the element with id `animation-list` was found in the document. -/
  animationListContainer : Bool
  /-- The elements of class `animation-checkbox`, in document order. -/
  checkboxes : List Checkbox
  /-- Checked state of the element `sequential-checkbox`. -/
  sequentialChecked : Bool
  /-- Checked state of the element `all-checkbox`. -/
  allChecked : Bool
  /-- Whether the two mode checkboxes carry their `change` listeners. -/
  modeListeners : Bool
  /-- Pending `setTimeout` callbacks, oldest first. -/
  timers : List Timer
  /-- The id the next `setTimeout` call returns. -/
  nextHandle : Nat
  /-- Every call made on a mixer so far, oldest first. -/
  calls : List MixerCall
deriving DecidableEq, Repr

/-- The call `mixer.stopAllAction()`: every running action is deactivated.  With
no mixer the state is left as it is (the script reaches this call only after a
mixer was created). -/
def mixerStopAllAction (s : State) : State :=
  match s.mixer with
  | none => s
  | some _ => { s with mixer := some ⟨[]⟩, calls := s.calls ++ [MixerCall.stopAllAction] }

/-- The calls `mixer.clipAction(animation)` and `action.reset().play()`: the
action of the clip becomes active.  For an `undefined` animation only the call
is recorded. -/
def mixerClipActionPlay (clip : Option Nat) (s : State) : State :=
  match s.mixer with
  | none => s
  | some m =>
    { s with
      mixer := some ⟨match clip with
        | some i => if i ∈ m.active then m.active else m.active ++ [i]
        | none => m.active⟩,
      calls := s.calls ++ [MixerCall.clipActionPlay clip] }

/-- The function `playAnimation(index, checked)` of the script. -/
def playAnimation (index : Int) (checked : Bool) (s : State) : State :=
  if (s.gltfAnimations.length : Int) > index ∧ s.mixer.isSome then
    let animation : Option Nat := if 0 ≤ index then some index.toNat else none
    let s1 := mixerStopAllAction s
    if checked then mixerClipActionPlay animation s1 else s1
  else s

/-- The call `document.getElementById` for the id `animation-N-checkbox`. -/
def getElementById (n : Nat) (s : State) : Option Checkbox :=
  s.checkboxes.find? (fun cb => cb.id == n)

/-- The call `setTimeout(callback, 2000)` inside `playNextAnimation`. -/
def setTimeout (index currentIndex : Nat) (s : State) : State :=
  { s with
    timers := s.timers ++ [⟨s.nextHandle, index, currentIndex⟩],
    nextHandle := s.nextHandle + 1 }

/-- The closure `playNextAnimation` of `playSequentialAnimations`, run with the
cursor variable at `currentIndex`. -/
def playNextAnimation (currentIndex : Nat) (s : State) : State :=
  match getElementById currentIndex s with
  | some animationCheckbox =>
    if animationCheckbox.checked then
      let index := animationCheckbox.dataIndex
      setTimeout index currentIndex (playAnimation index true s)
    else s
  | none => s

/-- The body of the callback given to `setTimeout`. -/
def timerCallback (t : Timer) (s : State) : State :=
  let s1 := playAnimation t.index false s
  let currentIndex := t.currentIndex + 1
  if currentIndex < s1.gltfAnimations.length then playNextAnimation currentIndex s1 else s1

/-- The oldest pending timer fires (nothing happens when none is pending). -/
def fireNext (s : State) : State :=
  match s.timers with
  | [] => s
  | t :: rest => timerCallback t { s with timers := rest }

/-- The state after `n` timer firings with no other event in between. -/
def runTimers : Nat → State → State
  | 0, s => s
  | n + 1, s => fireNext (runTimers n s)

/-- The function `playSequentialAnimations()` of the script, up to its return
(the deferred callbacks stay in `timers`). -/
def playSequentialAnimations (s : State) : State :=
  if s.gltfAnimations.length > 0 ∧ s.mixer.isSome then playNextAnimation 0 s else s

/-- Whether the HTML parser copies the text verbatim into a text node: it holds
none of the characters `<` (starts a tag), `&` (starts a character reference),
carriage return (turned into a line feed) and NUL (dropped). -/
def plainText (t : String) : Bool :=
  t.data.all (fun c => c != '<' && c != '&' && c.toNat != 13 && c.toNat != 0)

/-- The elements that the markup built by
`gltfAnimations.map((animation, index) => ...)`, from position `index` on,
becomes when it is assigned to `innerHTML`: for each clip one label showing the
name and one input, unchecked, enabled and without listener.  The name is
pasted into the markup unescaped, so this holds for plain-text names only; with
any other name the result is `none` (not modelled). -/
def checkboxesHTML : Nat → List Clip → Option (List Checkbox)
  | _, [] => some []
  | index, animation :: rest =>
    if plainText animation.name then
      match checkboxesHTML (index + 1) rest with
      | some boxes => some (⟨animation.name, index, index, false, false, 0⟩ :: boxes)
      | none => none
    else none

/-- The call `checkbox.addEventListener` in `displayAnimationList`, binding the
per-clip `change` listener. -/
def addChangeListener (cb : Checkbox) : Checkbox :=
  { cb with changeListeners := cb.changeListeners + 1 }

/-- The function `displayAnimationList()` of the script.  Replacing `innerHTML`
removes the old checkboxes together with the listeners bound to them; every new
checkbox then gets one `change` listener.  The listeners of the mode checkboxes
are named functions, so adding them again does not duplicate them.  The result
is `none` when the markup holds a clip name that is not plain text. -/
def displayAnimationList (s : State) : Option State :=
  if s.animationListContainer = true ∧ s.gltfAnimations.length > 0 then
    match checkboxesHTML 0 s.gltfAnimations with
    | some boxes =>
      some { s with checkboxes := boxes.map addChangeListener, modeListeners := true }
    | none => none
  else some s

/-- The first statements of the parse callback in `loadGLB`: the registry is
replaced and a fresh mixer is created. -/
def installAsset (clips : List Clip) (s : State) : State :=
  { s with gltfAnimations := clips, mixer := some ⟨[]⟩ }

/-- The parse callback of `loadGLB(file)` for an asset whose animations are
`clips`. -/
def loadGLB (clips : List Clip) (s : State) : Option State :=
  match displayAnimationList (installAsset clips s) with
  | some s1 => some (playSequentialAnimations s1)
  | none => none

/-- The `forEach` loop of `handleSequentialPlayback`. -/
def uncheckAll (checked : Bool) (s : State) : State :=
  { s with checkboxes := s.checkboxes.map (fun cb => { cb with checked := false, disabled := checked }) }

/-- The function `handleSequentialPlayback(event)`, with `checked` the value of
`event.target.checked`. -/
def handleSequentialPlayback (checked : Bool) (s : State) : State :=
  let s1 := uncheckAll checked s
  if checked then playSequentialAnimations s1 else mixerStopAllAction s1

/-- One round of the `forEach` loop of `handleAllPlayback`, for the checkbox at
position `index` of the node list. -/
def handleAllPlaybackStep (checked : Bool) (s : State) (index : Nat) : State :=
  playAnimation index checked
    { s with checkboxes :=
        s.checkboxes.modify (fun cb => { cb with checked := checked, disabled := checked }) index }

/-- The function `handleAllPlayback(event)`, with `checked` the value of
`event.target.checked`. -/
def handleAllPlayback (checked : Bool) (s : State) : State :=
  (List.range s.checkboxes.length).foldl (handleAllPlaybackStep checked) s

/-- The user clicks the per-clip checkbox at position `pos`: the browser flips
the box and runs each `change` listener bound to it, which calls
`playAnimation(index, checked)`.  A disabled box does not react. -/
def clickClip (pos : Nat) (s : State) : State :=
  match s.checkboxes.get? pos with
  | none => s
  | some cb =>
    if cb.disabled then s
    else
      let checked := !cb.checked
      Nat.iterate (playAnimation cb.dataIndex checked) cb.changeListeners
        { s with checkboxes := s.checkboxes.modify (fun c => { c with checked := checked }) pos }

/-- The user flips the sequential checkbox. -/
def clickSequential (s : State) : State :=
  let checked := !s.sequentialChecked
  let s1 := { s with sequentialChecked := checked }
  if s1.modeListeners then handleSequentialPlayback checked s1 else s1

/-- The user flips the all checkbox. -/
def clickAll (s : State) : State :=
  let checked := !s.allChecked
  let s1 := { s with allChecked := checked }
  if s1.modeListeners then handleAllPlayback checked s1 else s1

/-- What can happen to the page. -/
inductive Event where
  | load (clips : List Clip)
  | clip (pos : Nat)
  | sequential
  | all
  | timeout
deriving DecidableEq, Repr

/-- The effect of one event; `none` when the event is a load outside the model. -/
def step (s : State) : Event → Option State
  | Event.load clips => loadGLB clips s
  | Event.clip pos => some (clickClip pos s)
  | Event.sequential => some (clickSequential s)
  | Event.all => some (clickAll s)
  | Event.timeout => some (fireNext s)

/-- Whether the event is within the model: every clip name of a loaded asset is
plain text. -/
def plainEvent : Event → Bool
  | Event.load clips => clips.all (fun a => plainText a.name)
  | _ => true

/-- The state when the script has run its top level: no asset, no mixer, no
per-clip checkbox, no timer. -/
def initial (container sequentialChecked allChecked : Bool) : State :=
  { gltfAnimations := [], mixer := none, animationListContainer := container,
    checkboxes := [], sequentialChecked := sequentialChecked, allChecked := allChecked,
    modeListeners := false, timers := [], nextHandle := 0, calls := [] }

/-- The state after a sequence of events. -/
def run : List Event → State → Option State
  | [], s => some s
  | e :: rest, s =>
    match step s e with
    | some s1 => run rest s1
    | none => none

/-- The per-clip checkboxes are those rendered for the current registry: one
per clip, the box at position `i` carrying id `i` and data index `i`. -/
def Rendered (s : State) : Prop :=
  s.checkboxes.map (fun cb => (cb.id, cb.dataIndex)) =
    (List.range s.gltfAnimations.length).map (fun i => (i, i))

instance (s : State) : Decidable (Rendered s) := by
  unfold Rendered; infer_instance

/-- The length of the maximal run of checked boxes starting at position 0. -/
def checkedRun (s : State) : Nat :=
  (s.checkboxes.takeWhile (fun cb => cb.checked)).length

/-- The mixer calls of the sequential chain over `k` playable clips after `j`
timer firings: a full round (stop all, play, stop all) for each finished clip,
and the start of clip `j` when it is still within the run. -/
def chainCalls (k j : Nat) : List MixerCall :=
  (List.range (min j k)).flatMap
      (fun i => [MixerCall.stopAllAction, MixerCall.clipActionPlay (some i),
        MixerCall.stopAllAction])
    ++ (if j < k then [MixerCall.stopAllAction, MixerCall.clipActionPlay (some j)] else [])

/-- The clips started by a list of mixer calls, in order. -/
def played : List MixerCall → List Nat
  | [] => []
  | MixerCall.clipActionPlay (some i) :: rest => i :: played rest
  | _ :: rest => played rest

/-- The state of the sequential chain over `k` playable clips, started in `s`,
after `j` timer firings. -/
def chainState (s : State) (k j : Nat) : State :=
  { s with
    mixer := if k = 0 then s.mixer else some ⟨if j < k then [j] else []⟩,
    calls := s.calls ++ chainCalls k j,
    timers := if j < k then [⟨s.nextHandle + j, j, j⟩] else [],
    nextHandle := s.nextHandle + min (j + 1) k }

/-- The boxes of `session`: box `index` and onwards, one per clip, labelled with
the clip name, checked as listed, enabled, with its one `change` listener. -/
def sessionBoxes : Nat → List Clip → List Bool → List Checkbox
  | index, animation :: rest, b :: checks =>
    ⟨animation.name, index, index, b, false, 1⟩ :: sessionBoxes (index + 1) rest checks
  | _, _, _ => []

/-- A session with the registry `clips` loaded, the rendered boxes checked as
listed in `checks`, and the actions of the clips in `active` running. -/
def session (clips : List Clip) (checks : List Bool) (active : List Nat) : State :=
  { gltfAnimations := clips, mixer := some ⟨active⟩, animationListContainer := true,
    checkboxes := sessionBoxes 0 clips checks,
    sequentialChecked := false, allChecked := false, modeListeners := true,
    timers := [], nextHandle := 0, calls := [] }

/-- Four clips A, B, C, D with A, B and D checked and C unchecked. -/
def sessionABCD : State :=
  session [⟨"A"⟩, ⟨"B"⟩, ⟨"C"⟩, ⟨"D"⟩] [true, true, false, true] []

/-- Two clips A and B, both checked. -/
def sessionAB : State :=
  session [⟨"A"⟩, ⟨"B"⟩] [true, true] []

/-- Two clips A and B, both unchecked, nothing playing. -/
def sessionIdle : State :=
  session [⟨"A"⟩, ⟨"B"⟩] [false, false] []

/-- One clip A, checked and playing. -/
def sessionPlaying : State :=
  session [⟨"A"⟩] [true] [0]

/-- The property kept by every event: no timer is pending, and without a
container element there is no per-clip box. -/
def Quiet (s : State) : Prop :=
  s.timers = [] ∧ (s.animationListContainer = false → s.checkboxes = [])

/-! ## Basic facts about the operations -/

theorem playAnimation_off (i : Nat) (s : State) (hi : i < s.gltfAnimations.length)
    (hm : s.mixer.isSome = true) :
    playAnimation i false s =
      { s with mixer := some ⟨[]⟩, calls := s.calls ++ [MixerCall.stopAllAction] } := by
  obtain ⟨m, hm⟩ := Option.isSome_iff_exists.mp hm
  simp [playAnimation, mixerStopAllAction, hm, hi]

theorem playAnimation_on (i : Nat) (s : State) (hi : i < s.gltfAnimations.length)
    (hm : s.mixer.isSome = true) :
    playAnimation i true s =
      { s with mixer := some ⟨[i]⟩,
               calls := s.calls ++ [MixerCall.stopAllAction, MixerCall.clipActionPlay (some i)] } := by
  obtain ⟨m, hm⟩ := Option.isSome_iff_exists.mp hm
  simp [playAnimation, mixerStopAllAction, mixerClipActionPlay, hm, hi]

/-- Looking up an id in a list of boxes numbered consecutively from `off`. -/
theorem find_numbered (l : List Checkbox) :
    ∀ (off c : Nat),
      l.map (fun cb => (cb.id, cb.dataIndex)) = (List.range' off l.length).map (fun i => (i, i)) →
      c < l.length →
      ∃ cb, l[c]? = some cb ∧ l.find? (fun cb => cb.id == off + c) = some cb ∧
        cb.dataIndex = off + c := by
  induction l with
  | nil => intro off c _ hc; simp at hc
  | cons a l ih =>
    intro off c h hc
    simp only [List.map_cons, List.length_cons, List.range'_succ, List.cons.injEq,
      Prod.mk.injEq] at h
    obtain ⟨⟨hid, hdi⟩, htl⟩ := h
    cases c with
    | zero => exact ⟨a, by simp, by simp [hid], by simp [hdi]⟩
    | succ c =>
      obtain ⟨cb, h1, h2, h3⟩ := ih (off + 1) c htl (by simpa using hc)
      refine ⟨cb, by simpa using h1, ?_, by omega⟩
      have hne : (a.id == off + (c + 1)) = false := by simp [hid]
      rw [List.find?_cons, hne]
      have e : off + (c + 1) = off + 1 + c := by omega
      rw [e]; exact h2

theorem rendered_length (s : State) (h : Rendered s) :
    s.checkboxes.length = s.gltfAnimations.length := by
  have := congrArg List.length h
  simpa using this

theorem rendered_lookup (s : State) (h : Rendered s) (c : Nat)
    (hc : c < s.gltfAnimations.length) :
    ∃ cb, s.checkboxes[c]? = some cb ∧ getElementById c s = some cb ∧ cb.dataIndex = c := by
  have hl := rendered_length s h
  have := find_numbered s.checkboxes 0 c (by
    unfold Rendered at h; rw [h, hl, List.range_eq_range']) (by omega)
  simpa [getElementById] using this

theorem takeWhile_length_le (p : Checkbox → Bool) (l : List Checkbox) :
    (l.takeWhile p).length ≤ l.length := by
  induction l with
  | nil => simp
  | cons a l ih => by_cases h : p a <;> simp [List.takeWhile_cons, h]; omega

theorem takeWhile_inside (p : Checkbox → Bool) (l : List Checkbox) :
    ∀ (i : Nat) (cb : Checkbox), i < (l.takeWhile p).length → l[i]? = some cb → p cb = true := by
  induction l with
  | nil => intro i cb hi; simp at hi
  | cons a l ih =>
    intro i cb hi hcb
    by_cases h : p a
    · simp only [List.takeWhile_cons, h, if_true, List.length_cons] at hi
      cases i with
      | zero => simp at hcb; rw [← hcb]; exact h
      | succ i => exact ih i cb (by omega) (by simpa using hcb)
    · simp [List.takeWhile_cons, h] at hi

theorem takeWhile_boundary (p : Checkbox → Bool) (l : List Checkbox) :
    ∀ (cb : Checkbox), l[(l.takeWhile p).length]? = some cb → p cb = false := by
  induction l with
  | nil => intro cb h; simp at h
  | cons a l ih =>
    intro cb hcb
    by_cases h : p a
    · simp only [List.takeWhile_cons, h, if_true, List.length_cons] at hcb
      exact ih cb (by simpa using hcb)
    · simp [List.takeWhile_cons, h] at hcb
      rw [← hcb]; simpa using h

theorem checkedRun_le (s : State) : checkedRun s ≤ s.checkboxes.length :=
  takeWhile_length_le _ _

/-- Inside the checked run, `playNextAnimation` starts the clip and schedules
one callback. -/
theorem playNextAnimation_checked (s : State) (boxes : List Checkbox) (c : Nat)
    (hb : s.checkboxes = boxes) (hr : Rendered s) (hm : s.mixer.isSome = true)
    (hc : c < (boxes.takeWhile (fun cb => cb.checked)).length) :
    playNextAnimation c s =
      { s with mixer := some ⟨[c]⟩,
               calls := s.calls ++ [MixerCall.stopAllAction, MixerCall.clipActionPlay (some c)],
               timers := s.timers ++ [⟨s.nextHandle, c, c⟩],
               nextHandle := s.nextHandle + 1 } := by
  subst hb
  have hl := rendered_length s hr
  have hle := takeWhile_length_le (fun cb => cb.checked) s.checkboxes
  have hcN : c < s.gltfAnimations.length := by omega
  obtain ⟨cb, h1, h2, h3⟩ := rendered_lookup s hr c hcN
  have hchk : cb.checked = true := takeWhile_inside _ _ c cb hc h1
  simp only [playNextAnimation, h2, hchk, if_true, h3]
  rw [playAnimation_on c s hcN hm]
  simp [setTimeout]

/-- At the first unchecked box, `playNextAnimation` does nothing. -/
theorem playNextAnimation_boundary (s : State) (boxes : List Checkbox) (c : Nat)
    (hb : s.checkboxes = boxes) (hr : Rendered s)
    (hc : c = (boxes.takeWhile (fun cb => cb.checked)).length)
    (hcN : c < s.gltfAnimations.length) :
    playNextAnimation c s = s := by
  subst hb
  obtain ⟨cb, h1, h2, h3⟩ := rendered_lookup s hr c hcN
  have hchk : cb.checked = false := takeWhile_boundary _ _ cb (by rw [← hc]; exact h1)
  simp [playNextAnimation, h2, hchk]

theorem chainCalls_succ_inside (k j : Nat) (h : j < k) :
    chainCalls k (j + 1) =
      chainCalls k j ++ [MixerCall.stopAllAction] ++
        (if j + 1 < k then [MixerCall.stopAllAction, MixerCall.clipActionPlay (some (j + 1))]
         else []) := by
  have e1 : min j k = j := by omega
  have e2 : min (j + 1) k = j + 1 := by omega
  simp [chainCalls, e1, e2, h, List.range_succ, List.flatMap_append]

theorem chainCalls_succ_outside (k j : Nat) (h : k ≤ j) :
    chainCalls k (j + 1) = chainCalls k j := by
  have e1 : min j k = k := by omega
  have e2 : min (j + 1) k = k := by omega
  have h1 : ¬ j < k := by omega
  have h2 : ¬ j + 1 < k := by omega
  simp [chainCalls, e1, e2, h1, h2]

/-- The sequential chain, started in a state whose boxes are those rendered for
the registry, is after `j` timer firings in the state `chainState`. -/
theorem chain_run (s : State) (hr : Rendered s) (hm : s.mixer.isSome = true)
    (ht : s.timers = []) (j : Nat) :
    runTimers j (playSequentialAnimations s) = chainState s (checkedRun s) j := by
  have hl := rendered_length s hr
  have hle := checkedRun_le s
  induction j with
  | zero =>
    simp only [runTimers, playSequentialAnimations, hm, and_true]
    by_cases hN : s.gltfAnimations.length > 0
    · simp only [hN, if_true]
      by_cases hk : 0 < checkedRun s
      · rw [playNextAnimation_checked s s.checkboxes 0 rfl hr hm hk]
        have e : min 1 (checkedRun s) = 1 := by omega
        have hk0 : checkedRun s ≠ 0 := by omega
        ext <;> simp [chainState, chainCalls, hk, hk0, ht, e]
      · have hk0 : checkedRun s = 0 := by omega
        rw [playNextAnimation_boundary s s.checkboxes 0 rfl hr (by simpa [checkedRun] using hk0.symm) hN]
        ext <;> simp [chainState, chainCalls, hk0, ht]
    · have hk0 : checkedRun s = 0 := by omega
      simp only [hN, if_false]
      ext <;> simp [chainState, chainCalls, hk0, ht]
  | succ j ih =>
    simp only [runTimers, ih]
    by_cases hj : j < checkedRun s
    · have hk0 : checkedRun s ≠ 0 := by omega
      have hjN : j < s.gltfAnimations.length := by omega
      have hfire : fireNext (chainState s (checkedRun s) j) =
          timerCallback ⟨s.nextHandle + j, j, j⟩
            { chainState s (checkedRun s) j with timers := [] } := by
        simp [fireNext, chainState, hj]
      rw [hfire]
      simp only [timerCallback]
      rw [playAnimation_off j _ (by simpa [chainState] using hjN) (by simp [chainState, hk0])]
      by_cases hN : j + 1 < s.gltfAnimations.length
      · have hN2 : j + 1 < (chainState s (checkedRun s) j).gltfAnimations.length := by
          simpa [chainState] using hN
        simp only [hN2, if_true]
        by_cases hj1 : j + 1 < checkedRun s
        · rw [playNextAnimation_checked _ s.checkboxes (j + 1) (by simp [chainState])
            (by simpa [Rendered, chainState] using hr) (by simp) hj1]
          have e1 : min (j + 1) (checkedRun s) = j + 1 := by omega
          have e2 : min (j + 1 + 1) (checkedRun s) = j + 1 + 1 := by omega
          ext <;> simp [chainState, chainCalls_succ_inside _ _ hj, hj, hj1, hk0, e1, e2]
          omega
        · rw [playNextAnimation_boundary _ s.checkboxes (j + 1) (by simp [chainState])
            (by simpa [Rendered, chainState] using hr)
            (by simp only [checkedRun] at hj hj1; omega) (by simpa [chainState] using hN)]
          have e1 : min (j + 1) (checkedRun s) = j + 1 := by omega
          have e2 : min (j + 1 + 1) (checkedRun s) = j + 1 := by omega
          ext <;> simp [chainState, chainCalls_succ_inside _ _ hj, hj, hj1, hk0, e1, e2]
      · have hN2 : ¬ j + 1 < (chainState s (checkedRun s) j).gltfAnimations.length := by
          simpa [chainState] using hN
        have hj1 : ¬ j + 1 < checkedRun s := by omega
        simp only [hN2, if_false]
        have e1 : min (j + 1) (checkedRun s) = j + 1 := by omega
        have e2 : min (j + 1 + 1) (checkedRun s) = j + 1 := by omega
        ext <;> simp [chainState, chainCalls_succ_inside _ _ hj, hj, hj1, hk0, e1, e2]
    · have hj1 : ¬ j + 1 < checkedRun s := by omega
      have e1 : min (j + 1) (checkedRun s) = checkedRun s := by omega
      have e2 : min (j + 1 + 1) (checkedRun s) = checkedRun s := by omega
      have hfire : fireNext (chainState s (checkedRun s) j) = chainState s (checkedRun s) j := by
        simp [fireNext, chainState, hj]
      rw [hfire]
      ext <;> simp [chainState, chainCalls_succ_outside _ _ (Nat.le_of_not_lt hj), hj, hj1, e1, e2]

theorem played_append (a b : List MixerCall) : played (a ++ b) = played a ++ played b := by
  induction a with
  | nil => rfl
  | cons c a ih =>
    cases c with
    | stopAllAction => simpa [played] using ih
    | clipActionPlay clip =>
      cases clip with
      | none => simpa [played] using ih
      | some i => simp [played, ih]

theorem played_rounds (k : Nat) :
    played ((List.range k).flatMap
      (fun i => [MixerCall.stopAllAction, MixerCall.clipActionPlay (some i),
        MixerCall.stopAllAction])) = List.range k := by
  induction k with
  | zero => rfl
  | succ k ih => simp [List.range_succ, List.flatMap_append, played_append, ih, played]

theorem takeWhile_all (p : Checkbox → Bool) (l : List Checkbox) (h : ∀ cb ∈ l, p cb = true) :
    (l.takeWhile p).length = l.length := by
  induction l with
  | nil => rfl
  | cons a l ih =>
    have ha : p a = true := h a (by simp)
    simp [List.takeWhile_cons, ha, ih (fun cb hcb => h cb (by simp [hcb]))]

/-- With every box unchecked, `playNextAnimation` does nothing. -/
theorem playNextAnimation_unchecked (c : Nat) (s : State)
    (h : ∀ cb ∈ s.checkboxes, cb.checked = false) : playNextAnimation c s = s := by
  unfold playNextAnimation getElementById
  cases hf : s.checkboxes.find? (fun cb => cb.id == c) with
  | none => rfl
  | some cb => simp [h cb (List.mem_of_find?_eq_some hf)]

theorem playSequentialAnimations_unchecked (s : State)
    (h : ∀ cb ∈ s.checkboxes, cb.checked = false) : playSequentialAnimations s = s := by
  unfold playSequentialAnimations
  split
  · exact playNextAnimation_unchecked 0 s h
  · rfl

/-- What `checkboxesHTML` renders when it renders: consecutive ids and data
indices, the clip names as labels, every box unchecked, enabled and without
listener. -/
theorem checkboxesHTML_some (clips : List Clip) :
    ∀ (off : Nat) (boxes : List Checkbox), checkboxesHTML off clips = some boxes →
      boxes.map (fun cb => cb.id) = List.range' off clips.length ∧
      boxes.map (fun cb => cb.dataIndex) = List.range' off clips.length ∧
      boxes.map (fun cb => cb.label) = clips.map (fun a => a.name) ∧
      (∀ cb ∈ boxes, cb.checked = false ∧ cb.disabled = false ∧ cb.changeListeners = 0) := by
  induction clips with
  | nil =>
    intro off boxes h
    simp only [checkboxesHTML, Option.some.injEq] at h
    subst h
    simp
  | cons a l ih =>
    intro off boxes h
    simp only [checkboxesHTML] at h
    split at h
    · cases hrest : checkboxesHTML (off + 1) l with
      | none => simp [hrest] at h
      | some rest =>
        simp only [hrest, Option.some.injEq] at h
        subst h
        obtain ⟨h1, h2, h3, h4⟩ := ih (off + 1) rest hrest
        refine ⟨by simp [h1, List.range'_succ], by simp [h2, List.range'_succ],
          by simp [h3], ?_⟩
        intro cb hcb
        simp only [List.mem_cons] at hcb
        rcases hcb with hcb | hcb
        · subst hcb; exact ⟨rfl, rfl, rfl⟩
        · exact h4 cb hcb
    · simp at h

/-- With plain-text names `checkboxesHTML` renders. -/
theorem checkboxesHTML_plain (clips : List Clip) :
    ∀ (off : Nat), (∀ a ∈ clips, plainText a.name = true) →
      ∃ boxes, checkboxesHTML off clips = some boxes := by
  induction clips with
  | nil => intro off _; exact ⟨[], rfl⟩
  | cons a l ih =>
    intro off h
    obtain ⟨rest, hrest⟩ := ih (off + 1) (fun b hb => h b (by simp [hb]))
    have ha : plainText a.name = true := h a (by simp)
    exact ⟨⟨a.name, off, off, false, false, 0⟩ :: rest, by simp [checkboxesHTML, ha, hrest]⟩

theorem uncheckAll_unchecked (c : Bool) (s : State) :
    ∀ cb ∈ (uncheckAll c s).checkboxes, cb.checked = false := by
  intro cb h
  simp only [uncheckAll, List.mem_map] at h
  obtain ⟨a, _, rfl⟩ := h
  rfl

/-- What `playAnimation` leaves alone. -/
theorem playAnimation_frame (i : Int) (c : Bool) (s : State) :
    (playAnimation i c s).timers = s.timers ∧
    (playAnimation i c s).checkboxes = s.checkboxes ∧
    (playAnimation i c s).gltfAnimations = s.gltfAnimations ∧
    (playAnimation i c s).animationListContainer = s.animationListContainer ∧
    (playAnimation i c s).sequentialChecked = s.sequentialChecked ∧
    (playAnimation i c s).allChecked = s.allChecked ∧
    (playAnimation i c s).modeListeners = s.modeListeners ∧
    (playAnimation i c s).nextHandle = s.nextHandle := by
  unfold playAnimation
  split
  · cases hm : s.mixer <;> cases c <;> simp [mixerStopAllAction, mixerClipActionPlay, hm]
  · simp

/-- What the loop of `handleAllPlayback` leaves alone. -/
theorem handleAllPlayback_frame (c : Bool) (l : List Nat) :
    ∀ (s : State),
      (l.foldl (handleAllPlaybackStep c) s).timers = s.timers ∧
      (l.foldl (handleAllPlaybackStep c) s).animationListContainer = s.animationListContainer ∧
      (l.foldl (handleAllPlaybackStep c) s).sequentialChecked = s.sequentialChecked ∧
      (l.foldl (handleAllPlaybackStep c) s).allChecked = s.allChecked := by
  induction l with
  | nil => intro s; simp
  | cons a l ih =>
    intro s
    obtain ⟨h1, h2, h3, h4⟩ := ih (handleAllPlaybackStep c s a)
    obtain ⟨f1, _, _, f4, f5, f6, _, _⟩ := playAnimation_frame a c
      { s with checkboxes :=
          s.checkboxes.modify (fun cb => { cb with checked := c, disabled := c }) a }
    simp only [List.foldl_cons]
    refine ⟨h1.trans ?_, h2.trans ?_, h3.trans ?_, h4.trans ?_⟩
    · exact f1
    · exact f4
    · exact f5
    · exact f6

/-- The call of `playSequentialAnimations` at the end of `loadGLB` changes
nothing when a missing container goes with an empty list of boxes. -/
theorem loadGLB_display (clips : List Clip) (s s1 : State)
    (h : s.animationListContainer = false → s.checkboxes = [])
    (hd : displayAnimationList (installAsset clips s) = some s1) :
    playSequentialAnimations s1 = s1 := by
  by_cases hN : clips = []
  · subst hN
    simp only [displayAnimationList, installAsset, List.length_nil, gt_iff_lt, lt_self_iff_false,
      and_false, if_false, Option.some.injEq] at hd
    subst hd
    simp [playSequentialAnimations]
  · have hpos : 0 < clips.length := List.length_pos.mpr hN
    apply playSequentialAnimations_unchecked
    intro cb hcb
    by_cases hc : s.animationListContainer = true
    · simp only [displayAnimationList, installAsset, hc, hpos, gt_iff_lt, and_self, if_true] at hd
      cases hb : checkboxesHTML 0 clips with
      | none => simp [hb] at hd
      | some boxes =>
        simp only [hb, Option.some.injEq] at hd
        subst hd
        simp only [List.mem_map] at hcb
        obtain ⟨b, hbm, rfl⟩ := hcb
        exact ((checkboxesHTML_some clips 0 boxes hb).2.2.2 b hbm).1
    · have hnil : s.checkboxes = [] := h (by simpa using hc)
      have hcf : s.animationListContainer = false := by simpa using hc
      simp [displayAnimationList, installAsset, hcf] at hd
      subst hd
      simp [hnil] at hcb

/-! ## The sequential cursor protocol -/

/-- C1: started in a state whose per-clip boxes are those rendered for the
registry, with a mixer and no pending timer, `playSequentialAnimations` followed
by all its deferred callbacks (any number `n` of firings at least the registry
size) ends with no timer pending and has made exactly the mixer calls of one
round (stop all, play, stop all) for each clip of the checked run, in increasing
order; the clips started are exactly `0, ..., checkedRun s - 1`.  The checked run
is the maximal block of checked boxes from position 0: every box before it is
checked and the box at its end, when there is one, is unchecked. -/
theorem sequential_plays_checked_run (s : State) (hr : Rendered s)
    (hm : s.mixer.isSome = true) (ht : s.timers = []) (n : Nat)
    (hn : s.gltfAnimations.length ≤ n) :
    (runTimers n (playSequentialAnimations s)).timers = [] ∧
    (runTimers n (playSequentialAnimations s)).calls =
      s.calls ++ (List.range (checkedRun s)).flatMap
        (fun i => [MixerCall.stopAllAction, MixerCall.clipActionPlay (some i),
          MixerCall.stopAllAction]) ∧
    played (runTimers n (playSequentialAnimations s)).calls =
      played s.calls ++ List.range (checkedRun s) ∧
    (∀ i cb, i < checkedRun s → s.checkboxes[i]? = some cb → cb.checked = true) ∧
    (∀ cb, s.checkboxes[checkedRun s]? = some cb → cb.checked = false) := by
  have hl := rendered_length s hr
  have hle := checkedRun_le s
  have hk : ¬ n < checkedRun s := by omega
  have e : min n (checkedRun s) = checkedRun s := by omega
  have hcalls : (runTimers n (playSequentialAnimations s)).calls =
      s.calls ++ (List.range (checkedRun s)).flatMap
        (fun i => [MixerCall.stopAllAction, MixerCall.clipActionPlay (some i),
          MixerCall.stopAllAction]) := by
    rw [chain_run s hr hm ht n]
    simp [chainState, chainCalls, hk, e]
  refine ⟨?_, hcalls, ?_, ?_, ?_⟩
  · rw [chain_run s hr hm ht n]
    simp [chainState, hk]
  · rw [hcalls, played_append, played_rounds]
  · intro i cb hi hcb
    exact takeWhile_inside _ _ i cb hi hcb
  · intro cb hcb
    exact takeWhile_boundary _ _ cb hcb

/-- The example of the specification: with A and B checked, C unchecked and D
checked, the chain plays A, then B, and stops; D is never started. -/
theorem sequential_plays_checked_run_witness :
    Rendered sessionABCD ∧ sessionABCD.mixer.isSome = true ∧ sessionABCD.timers = [] ∧
    sessionABCD.gltfAnimations.length ≤ 4 ∧ checkedRun sessionABCD = 2 ∧
    played (runTimers 4 (playSequentialAnimations sessionABCD)).calls =
      played sessionABCD.calls ++ List.range (checkedRun sessionABCD) ∧
    played (runTimers 4 (playSequentialAnimations sessionABCD)).calls = [0, 1] :=
  ⟨by decide, rfl, rfl, by decide, by decide,
    (sequential_plays_checked_run sessionABCD (by decide) rfl rfl 4 (by decide)).2.2.1,
    by decide⟩

/-- C9: for a rendered registry with a mixer and no pending timer.  When every
box is checked and there is at least one clip, after `j` timer firings the chain
has made the calls `chainCalls N j` (clip `i` is started, stopped when its
callback fires, then clip `i + 1` is started, up to clip `N - 1`), the running
clip is `j` while `j < N` and none afterwards, exactly `min (j + 1) N` callbacks
have been scheduled, and exactly one is pending while `j < N` and none from the
`N`-th firing on.  For any assignment of the boxes, at most one callback is
pending at any time, at most `N` are ever scheduled, and after `N` firings none is
pending and further firings change nothing. -/
theorem sequential_full_run (s : State) (hr : Rendered s)
    (hm : s.mixer.isSome = true) (ht : s.timers = []) :
    ((∀ cb ∈ s.checkboxes, cb.checked = true) → 1 ≤ s.gltfAnimations.length →
      ∀ j,
        (runTimers j (playSequentialAnimations s)).calls =
          s.calls ++ chainCalls s.gltfAnimations.length j ∧
        (runTimers j (playSequentialAnimations s)).mixer =
          some ⟨if j < s.gltfAnimations.length then [j] else []⟩ ∧
        (runTimers j (playSequentialAnimations s)).nextHandle =
          s.nextHandle + min (j + 1) s.gltfAnimations.length ∧
        (runTimers j (playSequentialAnimations s)).timers.length =
          (if j < s.gltfAnimations.length then 1 else 0)) ∧
    (∀ j,
        (runTimers j (playSequentialAnimations s)).timers.length ≤ 1 ∧
        (runTimers j (playSequentialAnimations s)).nextHandle ≤
          s.nextHandle + s.gltfAnimations.length ∧
        (s.gltfAnimations.length ≤ j →
          (runTimers j (playSequentialAnimations s)).timers = [] ∧
          runTimers (j + 1) (playSequentialAnimations s) =
            runTimers j (playSequentialAnimations s))) := by
  have hl := rendered_length s hr
  have hle := checkedRun_le s
  constructor
  · intro hall hN j
    have hk : checkedRun s = s.gltfAnimations.length := by
      rw [← hl]; exact takeWhile_all _ _ hall
    have hk0 : s.gltfAnimations.length ≠ 0 := by omega
    rw [chain_run s hr hm ht j, hk]
    refine ⟨by simp [chainState], by simp [chainState, hk0], by simp [chainState], ?_⟩
    by_cases hj : j < s.gltfAnimations.length <;> simp [chainState, hj]
  · intro j
    rw [chain_run s hr hm ht j]
    refine ⟨?_, ?_, ?_⟩
    · by_cases hj : j < checkedRun s <;> simp [chainState, hj]
    · simp only [chainState]; omega
    · intro hj
      have hj2 : ¬ j < checkedRun s := by omega
      refine ⟨by simp [chainState, hj2], ?_⟩
      simp [runTimers, chain_run s hr hm ht j, fireNext, chainState, hj2]

/-- The example of the specification: with A and B both checked, the chain
starts A, then on the first firing stops A and starts B, then on the second
firing stops B; two callbacks were scheduled and none is pending. -/
theorem sequential_full_run_witness :
    Rendered sessionAB ∧ sessionAB.mixer.isSome = true ∧ sessionAB.timers = [] ∧
    (∀ cb ∈ sessionAB.checkboxes, cb.checked = true) ∧ 1 ≤ sessionAB.gltfAnimations.length ∧
    (runTimers 2 (playSequentialAnimations sessionAB)).calls =
      sessionAB.calls ++ chainCalls sessionAB.gltfAnimations.length 2 ∧
    (runTimers 2 (playSequentialAnimations sessionAB)).timers.length =
      (if 2 < sessionAB.gltfAnimations.length then 1 else 0) :=
  ⟨by decide, rfl, rfl, by decide, by decide,
    ((sequential_full_run sessionAB (by decide) rfl rfl).1 (by decide) (by decide) 2).1,
    ((sequential_full_run sessionAB (by decide) rfl rfl).1 (by decide) (by decide) 2).2.2.2⟩

/-- The state in which a chain that has started its first clip is waiting for its
first callback. -/
theorem chain_started (s : State) (hr : Rendered s) (hm : s.mixer.isSome = true)
    (ht : s.timers = []) (hk : 0 < checkedRun s) :
    playSequentialAnimations s =
      { s with mixer := some ⟨[0]⟩,
               calls := s.calls ++ [MixerCall.stopAllAction, MixerCall.clipActionPlay (some 0)],
               timers := [⟨s.nextHandle, 0, 0⟩],
               nextHandle := s.nextHandle + 1 } := by
  have h := chain_run s hr hm ht 0
  have hk0 : checkedRun s ≠ 0 := by omega
  have e : min 1 (checkedRun s) = 1 := by omega
  simp only [runTimers] at h
  rw [h]
  ext <;> simp [chainState, chainCalls, hk, hk0, e]

/-- C5, as the code behaves: disabling Sequential while the first callback of a
chain is pending issues one `stopAllAction`, sets every per-clip box to unchecked
and enabled, and leaves the callback pending (the script keeps no timer handle
and never clears a timeout).  When the callback then fires it makes exactly one
more `stopAllAction` call and no play call, and schedules nothing; any further
firing changes nothing. -/
theorem sequential_disable_keeps_callback (s : State) (hr : Rendered s)
    (hm : s.mixer.isSome = true) (ht : s.timers = []) (hk : 0 < checkedRun s) :
    (handleSequentialPlayback false (playSequentialAnimations s)).timers =
      [⟨s.nextHandle, 0, 0⟩] ∧
    (handleSequentialPlayback false (playSequentialAnimations s)).calls =
      s.calls ++ [MixerCall.stopAllAction, MixerCall.clipActionPlay (some 0),
        MixerCall.stopAllAction] ∧
    (handleSequentialPlayback false (playSequentialAnimations s)).checkboxes =
      s.checkboxes.map (fun cb => { cb with checked := false, disabled := false }) ∧
    ∀ n, 1 ≤ n →
      (runTimers n (handleSequentialPlayback false (playSequentialAnimations s))).calls =
        (handleSequentialPlayback false (playSequentialAnimations s)).calls ++
          [MixerCall.stopAllAction] ∧
      (runTimers n (handleSequentialPlayback false (playSequentialAnimations s))).timers = [] := by
  have hl := rendered_length s hr
  have hle := checkedRun_le s
  have hN : 0 < s.gltfAnimations.length := by omega
  rw [chain_started s hr hm ht hk]
  refine ⟨by simp [handleSequentialPlayback, uncheckAll, mixerStopAllAction],
    by simp [handleSequentialPlayback, uncheckAll, mixerStopAllAction],
    by simp [handleSequentialPlayback, uncheckAll, mixerStopAllAction], ?_⟩
  intro n hn
  obtain ⟨m, rfl⟩ : ∃ m, n = m + 1 := ⟨n - 1, by omega⟩
  generalize hs2 : handleSequentialPlayback false
      { s with mixer := some ⟨[0]⟩,
               calls := s.calls ++ [MixerCall.stopAllAction, MixerCall.clipActionPlay (some 0)],
               timers := [⟨s.nextHandle, 0, 0⟩],
               nextHandle := s.nextHandle + 1 } = s2
  have h2t : s2.timers = [⟨s.nextHandle, 0, 0⟩] := by
    rw [← hs2]; simp [handleSequentialPlayback, uncheckAll, mixerStopAllAction]
  have h2m : s2.mixer.isSome = true := by
    rw [← hs2]; simp [handleSequentialPlayback, uncheckAll, mixerStopAllAction]
  have h2g : s2.gltfAnimations = s.gltfAnimations := by
    rw [← hs2]; simp [handleSequentialPlayback, uncheckAll, mixerStopAllAction]
  have h2b : ∀ cb ∈ s2.checkboxes, cb.checked = false := by
    intro cb hcb
    rw [← hs2] at hcb
    have hmem : cb ∈ s.checkboxes.map
        (fun c => { c with checked := false, disabled := false }) := by
      simpa [handleSequentialPlayback, uncheckAll, mixerStopAllAction] using hcb
    obtain ⟨a, _, ha⟩ := List.mem_map.mp hmem
    rw [← ha]
  have hfire : fireNext s2 =
      { s2 with mixer := some ⟨[]⟩, calls := s2.calls ++ [MixerCall.stopAllAction],
                timers := [] } := by
    simp only [fireNext, h2t, timerCallback]
    have hoff := playAnimation_off 0 { s2 with timers := [] } (by simpa [h2g] using hN)
      (by simpa using h2m)
    simp only [Nat.cast_zero] at hoff
    simp only [Nat.cast_zero, hoff]
    split
    · exact playNextAnimation_unchecked _ _ (by simpa using h2b)
    · rfl
  have hrun : runTimers (m + 1) s2 = fireNext s2 := by
    clear hn
    induction m with
    | zero => rfl
    | succ m ih =>
      simp only [runTimers] at ih ⊢
      rw [ih, hfire]
      simp [fireNext]
  rw [hrun, hfire]
  simp

/-- An instance of C5 as the code behaves: one checked clip, Sequential disabled
during the first dwell. -/
theorem sequential_disable_keeps_callback_witness :
    Rendered sessionPlaying ∧ sessionPlaying.mixer.isSome = true ∧
    sessionPlaying.timers = [] ∧ 0 < checkedRun sessionPlaying ∧
    (handleSequentialPlayback false (playSequentialAnimations sessionPlaying)).timers =
      [⟨sessionPlaying.nextHandle, 0, 0⟩] :=
  ⟨by decide, rfl, rfl, by decide,
    (sequential_disable_keeps_callback sessionPlaying (by decide) rfl rfl (by decide)).1⟩

/-- C5 fails as stated: with one checked clip, after the chain has started and
Sequential is disabled, the callback is still pending, and when it fires a
further `stopAllAction` call reaches the mixer after the one of the
cancellation. -/
theorem sequential_disable_not_cancelled :
    (handleSequentialPlayback false (playSequentialAnimations sessionPlaying)).timers =
      [⟨0, 0, 0⟩] ∧
    (handleSequentialPlayback false (playSequentialAnimations sessionPlaying)).calls =
      [MixerCall.stopAllAction, MixerCall.clipActionPlay (some 0), MixerCall.stopAllAction] ∧
    (runTimers 1 (handleSequentialPlayback false (playSequentialAnimations sessionPlaying))).calls =
      [MixerCall.stopAllAction, MixerCall.clipActionPlay (some 0), MixerCall.stopAllAction,
        MixerCall.stopAllAction] := by
  decide

/-! ## The handlers -/

theorem handleSequentialPlayback_on (s : State) :
    handleSequentialPlayback true s = uncheckAll true s := by
  simp only [handleSequentialPlayback, if_true]
  exact playSequentialAnimations_unchecked _ (uncheckAll_unchecked true s)

theorem handleSequentialPlayback_frame (c : Bool) (s : State) :
    (handleSequentialPlayback c s).timers = s.timers ∧
    (handleSequentialPlayback c s).animationListContainer = s.animationListContainer ∧
    (handleSequentialPlayback c s).allChecked = s.allChecked ∧
    (handleSequentialPlayback c s).sequentialChecked = s.sequentialChecked ∧
    ((handleSequentialPlayback c s).checkboxes = [] ↔ s.checkboxes = []) := by
  cases c with
  | true => rw [handleSequentialPlayback_on]; simp [uncheckAll]
  | false =>
    cases hm : s.mixer <;>
      simp [handleSequentialPlayback, uncheckAll, mixerStopAllAction, hm]

/-- What the listeners of a per-clip box leave alone. -/
theorem changeListeners_frame (i : Int) (c : Bool) (n : Nat) :
    ∀ (s : State),
      (Nat.iterate (playAnimation i c) n s).timers = s.timers ∧
      (Nat.iterate (playAnimation i c) n s).checkboxes = s.checkboxes ∧
      (Nat.iterate (playAnimation i c) n s).animationListContainer =
        s.animationListContainer := by
  induction n with
  | zero => intro s; exact ⟨rfl, rfl, rfl⟩
  | succ n ih =>
    intro s
    obtain ⟨h1, h2, h3⟩ := ih (playAnimation i c s)
    obtain ⟨f1, f2, _, f4, _⟩ := playAnimation_frame i c s
    simp only [Function.iterate_succ, Function.comp_apply]
    exact ⟨h1.trans f1, h2.trans f2, h3.trans f4⟩

/-- What `displayAnimationList` leaves alone. -/
theorem displayAnimationList_frame (s s1 : State) (h : displayAnimationList s = some s1) :
    s1.timers = s.timers ∧ s1.animationListContainer = s.animationListContainer ∧
    (s.animationListContainer = false → s1.checkboxes = s.checkboxes) := by
  unfold displayAnimationList at h
  split at h
  · rename_i hg
    cases hb : checkboxesHTML 0 s.gltfAnimations with
    | none => simp [hb] at h
    | some boxes =>
      simp only [hb, Option.some.injEq] at h
      subst h
      exact ⟨rfl, rfl, fun hc => by simp [hc] at hg⟩
  · simp only [Option.some.injEq] at h
    subst h
    exact ⟨rfl, rfl, fun _ => rfl⟩

theorem quiet_step (s s1 : State) (e : Event) (h : Quiet s) (hs : step s e = some s1) :
    Quiet s1 := by
  obtain ⟨ht, hc⟩ := h
  cases e with
  | load clips =>
    simp only [step, loadGLB] at hs
    cases hd : displayAnimationList (installAsset clips s) with
    | none => simp [hd] at hs
    | some s2 =>
      simp only [hd, Option.some.injEq] at hs
      rw [loadGLB_display clips s s2 hc hd] at hs
      subst hs
      obtain ⟨f1, f2, f3⟩ := displayAnimationList_frame _ _ hd
      refine ⟨f1.trans ht, ?_⟩
      intro hcont
      rw [f2] at hcont
      rw [f3 hcont]
      exact hc hcont
  | clip pos =>
    simp only [step, clickClip, Option.some.injEq] at hs
    subst hs
    cases hg : s.checkboxes.get? pos with
    | none => exact ⟨ht, hc⟩
    | some cb =>
      simp only
      split
      · exact ⟨ht, hc⟩
      · obtain ⟨f1, f2, f3⟩ := changeListeners_frame cb.dataIndex (!cb.checked)
          cb.changeListeners
          { s with checkboxes :=
              s.checkboxes.modify (fun c => { c with checked := !cb.checked }) pos }
        refine ⟨f1.trans ht, ?_⟩
        intro hcont
        rw [f3] at hcont
        rw [f2]
        simp [hc hcont]
  | sequential =>
    simp only [step, clickSequential, Option.some.injEq] at hs
    subst hs
    split
    · obtain ⟨f1, f2, _, _, f5⟩ := handleSequentialPlayback_frame (!s.sequentialChecked)
        { s with sequentialChecked := !s.sequentialChecked }
      refine ⟨f1.trans ht, ?_⟩
      intro hcont
      rw [f2] at hcont
      exact f5.mpr (hc hcont)
    · exact ⟨ht, hc⟩
  | all =>
    simp only [step, clickAll, Option.some.injEq] at hs
    subst hs
    split
    · by_cases hcont : s.animationListContainer = true
      · obtain ⟨f1, f2, _, _⟩ := handleAllPlayback_frame (!s.allChecked)
          (List.range s.checkboxes.length) { s with allChecked := !s.allChecked }
        refine ⟨f1.trans ht, ?_⟩
        intro hc2
        simp only [handleAllPlayback] at hc2
        rw [f2] at hc2
        simp [hcont] at hc2
      · have hnil : s.checkboxes = [] := hc (by simpa using hcont)
        simp only [handleAllPlayback, hnil, List.length_nil, List.range_zero, List.foldl_nil]
        exact ⟨ht, fun _ => rfl⟩
    · exact ⟨ht, hc⟩
  | timeout =>
    simp only [step, fireNext, ht, Option.some.injEq] at hs
    subst hs
    exact ⟨ht, hc⟩

theorem quiet_run (events : List Event) :
    ∀ (s s1 : State), Quiet s → run events s = some s1 → Quiet s1 := by
  induction events with
  | nil =>
    intro s s1 h hr
    simp only [run, Option.some.injEq] at hr
    subst hr
    exact h
  | cons e l ih =>
    intro s s1 h hr
    simp only [run] at hr
    cases hs : step s e with
    | none => simp [hs] at hr
    | some s2 =>
      simp only [hs] at hr
      exact ih s2 s1 (quiet_step s s2 e h hs) hr

/-- An asset whose clip names are plain text is within the model. -/
theorem loadGLB_plain (clips : List Clip) (s : State)
    (hp : ∀ a ∈ clips, plainText a.name = true) : ∃ s1, loadGLB clips s = some s1 := by
  obtain ⟨boxes, hb⟩ := checkboxesHTML_plain clips 0 hp
  have hd : ∃ s2, displayAnimationList (installAsset clips s) = some s2 := by
    unfold displayAnimationList
    split
    · exact ⟨{ installAsset clips s with
                checkboxes := boxes.map addChangeListener, modeListeners := true },
        by simp [installAsset, hb]⟩
    · exact ⟨_, rfl⟩
  obtain ⟨s2, hs2⟩ := hd
  exact ⟨playSequentialAnimations s2, by simp [loadGLB, hs2]⟩

theorem run_plain (events : List Event) :
    ∀ (s : State), (∀ e ∈ events, plainEvent e = true) → ∃ s1, run events s = some s1 := by
  induction events with
  | nil => intro s _; exact ⟨s, rfl⟩
  | cons e l ih =>
    intro s hp
    have he : plainEvent e = true := hp e (by simp)
    have hstep : ∃ s2, step s e = some s2 := by
      cases e with
      | load clips =>
        exact loadGLB_plain clips s (by simpa [plainEvent] using he)
      | clip pos => exact ⟨_, rfl⟩
      | sequential => exact ⟨_, rfl⟩
      | all => exact ⟨_, rfl⟩
      | timeout => exact ⟨_, rfl⟩
    obtain ⟨s2, hs2⟩ := hstep
    obtain ⟨s1, hs1⟩ := ih s2 (fun e2 h2 => hp e2 (by simp [h2]))
    exact ⟨s1, by simp [run, hs2, hs1]⟩

/-- As long as every loaded clip name is plain text, the sequential chain never
starts: after any sequence of events (asset loads, clicks on per-clip boxes,
clicks on the two mode boxes, timer firings) a state is reached in which no
callback is pending and in which `playSequentialAnimations` changes nothing at
either of its call sites, after `displayAnimationList` in the parse callback of
`loadGLB` and after the loop of `handleSequentialPlayback` with the box
checked. -/
theorem plain_names_keep_chain_idle (container seq all : Bool) (events : List Event)
    (hp : ∀ e ∈ events, plainEvent e = true) :
    ∃ s, run events (initial container seq all) = some s ∧
      s.timers = [] ∧
      (∀ clips s1, displayAnimationList (installAsset clips s) = some s1 →
        playSequentialAnimations s1 = s1) ∧
      playSequentialAnimations (uncheckAll true s) = uncheckAll true s := by
  obtain ⟨s, hs⟩ := run_plain events (initial container seq all) hp
  have hq : Quiet s := quiet_run events _ s ⟨rfl, fun _ => rfl⟩ hs
  refine ⟨s, hs, hq.1, fun clips s1 hd => loadGLB_display clips s s1 hq.2 hd, ?_⟩
  exact playSequentialAnimations_unchecked _ (uncheckAll_unchecked true _)

/-- C7, as the code behaves: the two mode boxes are independent.  A click on the
sequential box flips it and leaves the all box as it was; a click on the all box
flips it and leaves the sequential box as it was; neither handler, with the box
checked or unchecked, changes the other mode box.  So both mode boxes can be
checked at once. -/
theorem mode_toggles_independent (s : State) :
    (clickSequential s).sequentialChecked = (!s.sequentialChecked) ∧
    (clickSequential s).allChecked = s.allChecked ∧
    (clickAll s).allChecked = (!s.allChecked) ∧
    (clickAll s).sequentialChecked = s.sequentialChecked ∧
    (∀ c, (handleSequentialPlayback c s).allChecked = s.allChecked) ∧
    (∀ c, (handleAllPlayback c s).sequentialChecked = s.sequentialChecked) := by
  refine ⟨?_, ?_, ?_, ?_, ?_, ?_⟩
  · simp only [clickSequential]
    split
    · exact (handleSequentialPlayback_frame _ _).2.2.2.1
    · rfl
  · simp only [clickSequential]
    split
    · exact (handleSequentialPlayback_frame _ _).2.2.1
    · rfl
  · simp only [clickAll]
    split
    · exact (handleAllPlayback_frame _ _ _).2.2.2
    · rfl
  · simp only [clickAll]
    split
    · exact (handleAllPlayback_frame _ _ _).2.2.1
    · rfl
  · intro c; exact (handleSequentialPlayback_frame c s).2.2.1
  · intro c; exact (handleAllPlayback_frame c _ s).2.2.1

/-- C7 fails as stated: after loading one clip, checking the all box and then
the sequential box, both mode boxes are checked, the last click made no mixer
call, and the clip started by the all box is still running. -/
theorem modes_both_active :
    (run [Event.load [⟨"A"⟩], Event.all] (initial true false false)).map
      (fun s => s.allChecked) = some true ∧
    (run [Event.load [⟨"A"⟩], Event.all, Event.sequential] (initial true false false)).map
      (fun s => (s.allChecked, s.sequentialChecked)) = some (true, true) ∧
    (run [Event.load [⟨"A"⟩], Event.all, Event.sequential] (initial true false false)).map
      (fun s => s.calls) =
    (run [Event.load [⟨"A"⟩], Event.all] (initial true false false)).map (fun s => s.calls) ∧
    (run [Event.load [⟨"A"⟩], Event.all, Event.sequential] (initial true false false)).map
      (fun s => s.mixer) = some (some ⟨[0]⟩) := by
  decide

/-- C2, as the code behaves: for a clip index within the registry and a mixer
present, `playAnimation(index, false)` makes exactly one mixer call,
`stopAllAction`, and no play call; afterwards no action is running, whatever was
running before.  Nothing else in the state changes. -/
theorem toggle_off_stops_all (s : State) (index : Int) (h0 : 0 ≤ index)
    (hN : index < s.gltfAnimations.length) (hm : s.mixer.isSome = true) :
    playAnimation index false s =
      { s with mixer := some ⟨[]⟩, calls := s.calls ++ [MixerCall.stopAllAction] } := by
  obtain ⟨i, rfl⟩ := Int.eq_ofNat_of_zero_le h0
  exact playAnimation_off i s (by exact_mod_cast hN) hm

/-- An instance of C2 as the code behaves: one clip, checked and playing, is
toggled off. -/
theorem toggle_off_stops_all_witness :
    (0 : Int) ≤ 0 ∧ (0 : Int) < sessionPlaying.gltfAnimations.length ∧
    sessionPlaying.mixer.isSome = true ∧
    playAnimation 0 false sessionPlaying =
      { sessionPlaying with mixer := some ⟨[]⟩,
                            calls := sessionPlaying.calls ++ [MixerCall.stopAllAction] } :=
  ⟨by decide, by decide, rfl,
    toggle_off_stops_all sessionPlaying 0 (by decide) (by decide) rfl⟩

/-- C2 fails as stated: with clip 0 playing, `playAnimation(0, false)` calls
`stopAllAction` and the set of running actions changes from clip 0 to nothing;
the same happens when the user unchecks the box. -/
theorem toggle_off_changes_playing :
    sessionPlaying.mixer = some ⟨[0]⟩ ∧
    (playAnimation 0 false sessionPlaying).mixer = some ⟨[]⟩ ∧
    (playAnimation 0 false sessionPlaying).calls = [MixerCall.stopAllAction] ∧
    (clickClip 0 sessionPlaying).mixer = some ⟨[]⟩ ∧
    (clickClip 0 sessionPlaying).calls = [MixerCall.stopAllAction] := by
  decide

/-- C4 on the code: with A and B checked, `handleSequentialPlayback` with the box
checked first sets both boxes unchecked (and disabled), and the call of
`playSequentialAnimations` that follows then finds box 0 unchecked: it makes no
mixer call and schedules no callback, so nothing is played. -/
theorem sequential_on_clears_checked :
    sessionAB.checkboxes.map (fun cb => cb.checked) = [true, true] ∧
    (handleSequentialPlayback true sessionAB).checkboxes.map (fun cb => cb.checked) =
      [false, false] ∧
    (handleSequentialPlayback true sessionAB).checkboxes.map (fun cb => cb.disabled) =
      [true, true] ∧
    (handleSequentialPlayback true sessionAB).calls = [] ∧
    (handleSequentialPlayback true sessionAB).timers = [] := by
  decide

/-- C3 on the code: with two clips and nothing playing, `handleAllPlayback` with
the box checked calls `stopAllAction` before each start, so when it returns only
the last clip is running. -/
theorem all_playback_keeps_last_only :
    (handleAllPlayback true sessionIdle).calls =
      [MixerCall.stopAllAction, MixerCall.clipActionPlay (some 0),
        MixerCall.stopAllAction, MixerCall.clipActionPlay (some 1)] ∧
    (handleAllPlayback true sessionIdle).mixer = some ⟨[1]⟩ ∧
    (handleAllPlayback true sessionIdle).checkboxes.map (fun cb => (cb.checked, cb.disabled)) =
      [(true, true), (true, true)] := by
  decide

/-- C6 on the code: with one clip, playing, `playAnimation(-1, true)` passes the
guard (the registry length exceeds every negative index), calls `stopAllAction`
and then `clipAction` on an undefined clip; the running action is stopped. -/
theorem negative_index_reaches_mixer :
    sessionPlaying.mixer = some ⟨[0]⟩ ∧
    (playAnimation (-1) true sessionPlaying).calls =
      [MixerCall.stopAllAction, MixerCall.clipActionPlay none] ∧
    (playAnimation (-1) true sessionPlaying).mixer = some ⟨[]⟩ ∧
    playAnimation 1 true sessionPlaying = sessionPlaying := by
  decide

/-! ## Registry replacement -/

/-- C8, as the code behaves: let the container element exist and a first asset
be loaded.  When the second asset has at least one clip and its clip names are
plain text, after the second load the registry is the second asset and the
per-clip boxes are exactly those rendered for it: ids and data indices
0, ..., N2 - 1, labels the clip names in loader order, all unchecked and enabled,
each with exactly the one `change` listener bound during this load; no box and
no listener of the first asset remains.  When the second asset has no clip, the
registry becomes empty but `displayAnimationList` renders nothing: the boxes of
the first asset, with their listeners, stay as they were. -/
theorem second_load_replaces_boxes (s s1 : State) (clips1 clips2 : List Clip)
    (hc : s.animationListContainer = true) (h1 : loadGLB clips1 s = some s1) :
    ((∀ a ∈ clips2, plainText a.name = true) → clips2 ≠ [] →
      ∃ s2 boxes, loadGLB clips2 s1 = some s2 ∧ checkboxesHTML 0 clips2 = some boxes ∧
        s2.gltfAnimations = clips2 ∧
        s2.checkboxes = boxes.map addChangeListener ∧
        s2.checkboxes.length = clips2.length ∧
        s2.checkboxes.map (fun cb => cb.id) = List.range clips2.length ∧
        s2.checkboxes.map (fun cb => cb.dataIndex) = List.range clips2.length ∧
        s2.checkboxes.map (fun cb => cb.label) = clips2.map (fun a => a.name) ∧
        (∀ cb ∈ s2.checkboxes,
          cb.checked = false ∧ cb.disabled = false ∧ cb.changeListeners = 1)) ∧
    (∃ s2, loadGLB [] s1 = some s2 ∧ s2.gltfAnimations = [] ∧
      s2.checkboxes = s1.checkboxes) := by
  have hq1 : s1.animationListContainer = true := by
    simp only [loadGLB] at h1
    cases hd : displayAnimationList (installAsset clips1 s) with
    | none => simp [hd] at h1
    | some t =>
      simp only [hd, Option.some.injEq] at h1
      rw [loadGLB_display clips1 s t (by simp [hc]) hd] at h1
      subst h1
      rw [(displayAnimationList_frame _ _ hd).2.1]
      exact hc
  constructor
  · intro hp h2
    have hpos : 0 < clips2.length := List.length_pos.mpr h2
    obtain ⟨boxes, hb⟩ := checkboxesHTML_plain clips2 0 hp
    obtain ⟨i1, i2, i3, i4⟩ := checkboxesHTML_some clips2 0 boxes hb
    have hd : displayAnimationList (installAsset clips2 s1) =
        some { installAsset clips2 s1 with
                checkboxes := boxes.map addChangeListener, modeListeners := true } := by
      simp [displayAnimationList, installAsset, hq1, hpos, hb]
    refine ⟨{ installAsset clips2 s1 with
                checkboxes := boxes.map addChangeListener, modeListeners := true },
      boxes, ?_, hb, ?_, ?_, ?_, ?_, ?_, ?_, ?_⟩
    · simp only [loadGLB, hd]
      rw [loadGLB_display clips2 s1 _ (by simp [hq1]) hd]
    · simp [installAsset]
    · rfl
    · have := congrArg List.length i1
      simpa using this
    · rw [List.range_eq_range', ← i1]
      simp [addChangeListener, List.map_map, Function.comp_def]
    · rw [List.range_eq_range', ← i2]
      simp [addChangeListener, List.map_map, Function.comp_def]
    · rw [← i3]
      simp [addChangeListener, List.map_map, Function.comp_def]
    · intro cb hcb
      simp only [List.mem_map] at hcb
      obtain ⟨b, hbm, rfl⟩ := hcb
      obtain ⟨k1, k2, k3⟩ := i4 b hbm
      exact ⟨k1, k2, by simp [addChangeListener, k3]⟩
  · refine ⟨installAsset [] s1, ?_, rfl, rfl⟩
    simp [loadGLB, displayAnimationList, installAsset, playSequentialAnimations]

/-- An instance of C8 as the code behaves: clips A and B are loaded first, then
an asset with the single clip C. -/
theorem second_load_replaces_boxes_witness :
    (initial true false false).animationListContainer = true ∧
    loadGLB [⟨"A"⟩, ⟨"B"⟩] (initial true false false) = some sessionIdle ∧
    (∀ a ∈ ([⟨"C"⟩] : List Clip), plainText a.name = true) ∧
    ([⟨"C"⟩] : List Clip) ≠ [] ∧
    (∃ s2 boxes, loadGLB [⟨"C"⟩] sessionIdle = some s2 ∧
        checkboxesHTML 0 [⟨"C"⟩] = some boxes ∧
        s2.gltfAnimations = [⟨"C"⟩] ∧
        s2.checkboxes = boxes.map addChangeListener ∧
        s2.checkboxes.length = ([⟨"C"⟩] : List Clip).length ∧
        s2.checkboxes.map (fun cb => cb.id) = List.range ([⟨"C"⟩] : List Clip).length ∧
        s2.checkboxes.map (fun cb => cb.dataIndex) =
          List.range ([⟨"C"⟩] : List Clip).length ∧
        s2.checkboxes.map (fun cb => cb.label) =
          ([⟨"C"⟩] : List Clip).map (fun a => a.name) ∧
        (∀ cb ∈ s2.checkboxes,
          cb.checked = false ∧ cb.disabled = false ∧ cb.changeListeners = 1)) ∧
    loadGLB [⟨"C"⟩] sessionIdle =
      some (session [⟨"C"⟩] [false] []) :=
  ⟨rfl, by decide, by decide, by decide,
    (second_load_replaces_boxes (initial true false false) sessionIdle [⟨"A"⟩, ⟨"B"⟩] [⟨"C"⟩]
      rfl (by decide)).1 (by decide) (by decide),
    by decide⟩

/-- C8 fails as stated: after an asset with the clips A and B, loading an asset
with no clip empties the registry but leaves the two boxes of the first asset,
with their listeners, on the page. -/
theorem empty_second_load_keeps_boxes :
    (run [Event.load [⟨"A"⟩, ⟨"B"⟩], Event.load []] (initial true false false)).map
      (fun s => (s.gltfAnimations, s.checkboxes)) =
      some ([], [⟨"A", 0, 0, false, false, 1⟩, ⟨"B", 1, 1, false, false, 1⟩]) := by
  decide

end ThreeJsFrontend
